import Mathlib

/-!
Verification of the portfolio-optimizer model-construction pipeline
(`src/optimizer.py`, class `PortfolioOptimizer`).

The embedding below models the two input relations (`estoque` / Stock and
`obras` / Task) as lists of records, the pandas derivations in
`define_sets` / `define_parameters` as list functions (`.unique()` becomes
first-occurrence deduplication, `groupby(...).agg` becomes filter + map,
`set_index(...).to_dict()` becomes last-write-wins lookup), and the
Gurobi model as explicit data: variable key lists, syntactic linear
constraints, and an objective.  Python dictionary accesses that can raise
`KeyError` are modelled with `Option`; the run-level functions return
`Except String` so that aborted runs are distinguishable from results.
All numeric cell values are rationals.
-/

namespace Portfolio

/-- One row of the Stock relation (`Estoque.xlsx` after column renaming):
site id `cod_dep`, material id `cod_mat`, quantity `estoque`. -/
structure StockRow where
  cod_dep : Nat
  cod_mat : Nat
  estoque : Rat
deriving DecidableEq, Repr

/-- One row of the Task relation (`Obras.xlsx` after column renaming):
task id `obra`, candidate site `cod_dep`, priority `prioridade`,
material `cod_mat`, demanded quantity `qtd_dem`. -/
structure ObraRow where
  obra : Nat
  cod_dep : Nat
  prioridade : Rat
  cod_mat : Nat
  qtd_dem : Rat
deriving DecidableEq, Repr

/-- The input snapshot read by `read_inputs` (transport costs are passed
through opaquely by the source and never used in the model, so they are
omitted from the state). -/
structure Input where
  estoque : List StockRow
  obras : List ObraRow
deriving DecidableEq, Repr

/-- First-occurrence deduplication with an accumulator of already seen
elements; `uniquesAux seen l` keeps the elements of `l` not in `seen`,
first occurrence first. -/
def uniquesAux [DecidableEq α] (seen : List α) : List α → List α
  | [] => []
  | a :: as => if a ∈ seen then uniquesAux seen as else a :: uniquesAux (a :: seen) as

/-- Pandas `Series.unique()` / `drop_duplicates`: the distinct elements of
a list in order of first occurrence. -/
def uniques [DecidableEq α] (l : List α) : List α := uniquesAux [] l

theorem mem_uniquesAux [DecidableEq α] (a : α) (l : List α) :
    ∀ seen, a ∈ uniquesAux seen l ↔ (a ∈ l ∧ a ∉ seen) := by
  induction l with
  | nil => intro seen; simp [uniquesAux]
  | cons b bs ih =>
    intro seen
    unfold uniquesAux
    by_cases hb : b ∈ seen
    · rw [if_pos hb, ih]
      constructor
      · rintro ⟨h1, h2⟩; exact ⟨List.mem_cons_of_mem _ h1, h2⟩
      · rintro ⟨h1, h2⟩
        rcases List.mem_cons.mp h1 with h | h
        · subst h; exact absurd hb h2
        · exact ⟨h, h2⟩
    · rw [if_neg hb]
      by_cases hab : a = b
      · subst hab; simp [hb]
      · simp only [List.mem_cons, hab, false_or]
        rw [ih]
        simp [List.mem_cons, hab]

theorem mem_uniques [DecidableEq α] (a : α) (l : List α) :
    a ∈ uniques l ↔ a ∈ l := by
  rw [uniques, mem_uniquesAux]
  simp

theorem nodup_uniquesAux [DecidableEq α] (l : List α) :
    ∀ seen, (uniquesAux seen l).Nodup := by
  induction l with
  | nil => intro seen; simp [uniquesAux]
  | cons b bs ih =>
    intro seen
    unfold uniquesAux
    by_cases hb : b ∈ seen
    · rw [if_pos hb]; exact ih seen
    · rw [if_neg hb]
      refine List.nodup_cons.mpr ⟨?_, ih (b :: seen)⟩
      intro hmem
      exact ((mem_uniquesAux b bs (b :: seen)).mp hmem).2 (List.mem_cons_self b seen)

theorem nodup_uniques [DecidableEq α] (l : List α) : (uniques l).Nodup :=
  nodup_uniquesAux l []

/-! ## Index sets (`define_sets`) -/

/-- `model_sets['I'] = obras["obra"].unique()` — the distinct task ids. -/
def I (inp : Input) : List Nat :=
  uniques (inp.obras.map (·.obra))

/-- `model_sets['J'] = estoque["cod_dep"].unique()` — the distinct site ids,
taken from the Stock relation. -/
def J (inp : Input) : List Nat :=
  uniques (inp.estoque.map (·.cod_dep))

/-- `model_sets['M'] = estoque["cod_mat"].unique()` — the distinct material
ids, taken from the Stock relation. -/
def M (inp : Input) : List Nat :=
  uniques (inp.estoque.map (·.cod_mat))

/-- The value stored under key `i` of `model_sets['J_i']`: the Task rows are
deduplicated on `(obra, cod_dep)`, grouped by `obra`, and the distinct
`cod_dep` values of group `i` are collected in first-occurrence order. -/
def J_i (inp : Input) (i : Nat) : List Nat :=
  uniques ((inp.obras.filter (fun r => decide (r.obra = i))).map (·.cod_dep))

/-- Dictionary access `model_sets['J_i'][i]`: the key `i` exists exactly
when some Task row mentions task `i` (pandas `groupby` produces one group
per distinct key); a missing key is a Python `KeyError`, i.e. `none`. -/
def J_i_find (inp : Input) (i : Nat) : Option (List Nat) :=
  if inp.obras.any (fun r => decide (r.obra = i)) then some (J_i inp i) else none

/-- The value stored under key `j` of `model_sets['I_j']`: the distinct
tasks listing site `j` as a candidate, in first-occurrence order. -/
def I_j (inp : Input) (j : Nat) : List Nat :=
  uniques ((inp.obras.filter (fun r => decide (r.cod_dep = j))).map (·.obra))

/-- Dictionary access `model_sets['I_j'][j]`: the key `j` exists exactly
when some Task row mentions site `j`; otherwise `KeyError` (`none`). -/
def I_j_find (inp : Input) (j : Nat) : Option (List Nat) :=
  if inp.obras.any (fun r => decide (r.cod_dep = j)) then some (I_j inp j) else none

/-- The value stored under key `i` of `model_sets['M_i']`: the distinct
materials required by task `i`, in first-occurrence order. -/
def M_i (inp : Input) (i : Nat) : List Nat :=
  uniques ((inp.obras.filter (fun r => decide (r.obra = i))).map (·.cod_mat))

/-! ## Parameters (`define_parameters`) -/

/-- The deduplicated `(obra, prioridade)` pairs used to build
`parameters['w']` (`drop_duplicates(subset=['obra', 'prioridade'])`
restricted to the two columns that survive into the dictionary). -/
def wPairs (inp : Input) : List (Nat × Rat) :=
  uniques (inp.obras.map (fun r => (r.obra, r.prioridade)))

/-- `parameters['w'][i]`: `set_index('obra').to_dict()['prioridade']` builds
a dictionary row by row, so a key occurring several times keeps the value
written last; a task id absent from the Task relation is a missing key. -/
def w (inp : Input) (i : Nat) : Option Rat :=
  (((wPairs inp).filter (fun p => decide (p.1 = i))).getLast?).map (·.2)

/-- `parameters['q'][(i, m)]` as a total function: `groupby(['obra',
'cod_mat']).agg({'qtd_dem': 'sum'})` sums the demand over all raw rows of
the `(task, material)` pair (0 when the pair has no rows; the dictionary
key exists exactly when a row exists, see `q_find`). -/
def q (inp : Input) (i m : Nat) : Rat :=
  ((inp.obras.filter (fun r => decide (r.obra = i ∧ r.cod_mat = m))).map (·.qtd_dem)).sum

/-- Dictionary access `parameters['q'][i, m]`: the key `(i, m)` exists
exactly when some Task row carries that task and material. -/
def q_find (inp : Input) (i m : Nat) : Option Rat :=
  if inp.obras.any (fun r => decide (r.obra = i ∧ r.cod_mat = m)) then some (q inp i m)
  else none

/-- `parameters['Q'].get((j, m), 0)`: the Stock dictionary is built by
`set_index(['cod_dep', 'cod_mat']).to_dict()['estoque']` (last write wins
on duplicate keys) and read with `.get`, defaulting to 0 for a missing
`(site, material)` key. -/
def Q_get (inp : Input) (j m : Nat) : Rat :=
  ((((inp.estoque.filter (fun r => decide (r.cod_dep = j ∧ r.cod_mat = m))).getLast?).map
    (·.estoque)).getD 0)

/-! ## Decision variables (`create_decision_variables`) -/

/-- The key list the binary variable `x` is created over:
`[(i, j) for i in model_sets['I'] for j in model_sets['J_i'][i]]`
(the value produced when no dictionary access fails; see `xKeysOpt`). -/
def xKeys (inp : Input) : List (Nat × Nat) :=
  (I inp).flatMap (fun i => (J_i inp i).map (fun j => (i, j)))

/-- Evaluation of a fallible function over a list, stopping at the first
failure — the shape of a Python comprehension or loop whose body may raise. -/
def optMap (f : α → Option β) : List α → Option (List β)
  | [] => some []
  | a :: as =>
      match f a with
      | none => none
      | some b =>
          match optMap f as with
          | none => none
          | some bs => some (b :: bs)

/-- The same comprehension with `model_sets['J_i'][i]` modelled as a real
dictionary access that can raise `KeyError`: the whole comprehension
fails (`none`) when any task id lacks a `J_i` entry. -/
def xKeysOpt (inp : Input) : Option (List (Nat × Nat)) :=
  (optMap (fun i => (J_i_find inp i).map (fun js => js.map (fun j => (i, j)))) (I inp)).map
    List.flatten

/-- The key list the continuous transfer variable `t` is created over:
`[(k, j, m) for k in J for j in J for m in M if j != k]`. -/
def tKeys (inp : Input) : List (Nat × Nat × Nat) :=
  (J inp).flatMap (fun k =>
    (J inp).flatMap (fun j =>
      ((M inp).map (fun m => (k, j, m))).filter (fun p => decide (p.2.1 ≠ p.1))))

/-! ## Constraints (`create_constraints`) -/

/-- A variable reference in a linear expression: `x[i, j]` or `t[k, j, m]`. -/
inductive VarKey where
  | x (i j : Nat)
  | t (k j m : Nat)
deriving DecidableEq, Repr

/-- The Gurobi constraint name the source attaches (`C1_OneExecution_{i}` or
`C2_StockBalance_{m}_{j}`), kept structured. -/
inductive CTag where
  | oneExecution (i : Nat)
  | stockBalance (m j : Nat)
deriving DecidableEq, Repr

/-- A linear constraint `lhs ≤ rhsConst + rhs`, with both sides kept as
syntactic lists of (variable, coefficient) terms in emission order. -/
structure Constr where
  tag : CTag
  lhs : List (VarKey × Rat)
  rhsConst : Rat
  rhs : List (VarKey × Rat)
deriving DecidableEq, Repr

/-- Restriction 1 for task `i`:
`quicksum(x[i, j] for j in J_i[i]) <= 1`, named `C1_OneExecution_{i}`. -/
def assignConstr (inp : Input) (i : Nat) : Constr :=
  { tag := .oneExecution i
    lhs := (J_i inp i).map (fun j => (VarKey.x i j, (1 : Rat)))
    rhsConst := 1
    rhs := [] }

/-- The loop `for i in model_sets['I']` emitting restriction 1. -/
def assignConstrs (inp : Input) : List Constr :=
  (I inp).map (assignConstr inp)

/-- Restriction 2 for material `m` at site `j`, exactly as the source body
builds it: `LHS = quicksum(x[i, j] * q[i, m] for i in I_j[j] if m in
M_i[i]) + quicksum(t[j, k, m] for k in J if k != j)`;
`RHS = Q.get((j, m), 0) + quicksum(t[k, j, m] for k in J if k != j)`;
emitted as `LHS <= RHS`.  The dictionary access `model_sets['I_j'][j]`
raises `KeyError` (`none`) when site `j` occurs in no Task row.  The
lookup `params['q'][i, m]` is guarded by `m in M_i[i]`, under which the
key exists and holds the group sum `q inp i m` (lemma `q_find_guarded`). -/
def massConstr (inp : Input) (m j : Nat) : Option Constr :=
  match I_j_find inp j with
  | none => none
  | some tasks =>
      some
        { tag := .stockBalance m j
          lhs :=
            ((tasks.filter (fun i => decide (m ∈ M_i inp i))).map
              (fun i => (VarKey.x i j, q inp i m))) ++
            (((J inp).filter (fun k => decide (k ≠ j))).map
              (fun k => (VarKey.t j k m, (1 : Rat))))
          rhsConst := Q_get inp j m
          rhs :=
            ((J inp).filter (fun k => decide (k ≠ j))).map
              (fun k => (VarKey.t k j m, (1 : Rat))) }

/-- The double loop `for m in M: for j in J:` emitting restriction 2; a
`KeyError` in any iteration aborts the run (`none`). -/
def massConstrs (inp : Input) : Option (List Constr) :=
  (optMap (fun m => optMap (fun j => massConstr inp m j) (J inp)) (M inp)).map List.flatten

/-! ## Objective (`set_obj_priority`) -/

/-- A linear objective: terms and optimization direction. -/
structure Objective where
  terms : List (VarKey × Rat)
  maximize : Bool
deriving DecidableEq, Repr, Inhabited

/-- `setObjective(quicksum(x[i, j] * w[i] for i in I for j in J_i[i]),
GRB.MAXIMIZE)` — the only `setObjective` call the working implementation
makes.  The dictionary read `params['w'][i]` succeeds for every `i` in
`I` (lemma `w_eq_some_of_mem_I`); `getD 0` is the readback of that key. -/
def set_obj_priority (inp : Input) : Objective :=
  { terms :=
      (I inp).flatMap (fun i => (J_i inp i).map (fun j => (VarKey.x i j, (w inp i).getD 0)))
    maximize := true }

/-! ## The assembled model (`run`, up to `model.optimize()`) -/

/-- The model state right before `model.optimize()`: variable key lists,
the emitted constraints in emission order, and the objective. -/
structure GModel where
  xK : List (Nat × Nat)
  tK : List (Nat × Nat × Nat)
  constrs : List Constr
  obj : Objective
deriving DecidableEq, Repr, Inhabited

/-- The model-construction part of `run`: `create_decision_variables`,
`create_constraints` (restriction 1 then restriction 2), then
`set_obj_priority`.  A `KeyError` in variable creation or constraint
generation aborts the run before solving. -/
def buildModel (inp : Input) : Except String GModel :=
  match xKeysOpt inp with
  | none => .error "KeyError in create_decision_variables"
  | some xk =>
      match massConstrs inp with
      | none => .error "KeyError in create_constraints"
      | some mcs =>
          .ok { xK := xk
                tK := tKeys inp
                constrs := assignConstrs inp ++ mcs
                obj := set_obj_priority inp }

/-! ## Constraint semantics -/

/-- The value of a syntactic term list under an assignment of rationals to
variables (each term contributes `coefficient * value`). -/
def evalTerms (σ : VarKey → Rat) (ts : List (VarKey × Rat)) : Rat :=
  (ts.map (fun p => p.2 * σ p.1)).sum

/-- An assignment satisfies a constraint when the evaluated left side is at
most the constant plus the evaluated right side. -/
def satisfies (σ : VarKey → Rat) (c : Constr) : Prop :=
  evalTerms σ c.lhs ≤ c.rhsConst + evalTerms σ c.rhs

/-! ## Result extraction (`generate_results`) -/

/-- `np.isclose(value, 1)` with numpy defaults `rtol = 1e-5`,
`atol = 1e-8`: `|value - 1| <= atol + rtol * |1|`. -/
def isCloseOne (v : Rat) : Bool :=
  decide (|v - 1| ≤ 1 / 100000000 + 1 / 100000)

/-- The terminal state `model.optimize()` leaves the model in: an optimal
solution exposing a value for every variable, or the infeasible /
unbounded statuses, under which reading a variable attribute `X` raises. -/
inductive SolverStatus where
  | optimal (xv : Nat × Nat → Rat)
  | infeasible
  | unbounded

/-- One row of `df_real_output`: the reconciled table with the served flag
`obra_atendida` and the served priority `prioridade_atendida`. -/
structure ReconRow where
  obra : Nat
  cod_dep : Nat
  prioridade : Rat
  obra_atendida : Rat
  prioridade_atendida : Rat
deriving DecidableEq, Repr

/-- The result artifacts `generate_results` writes: the assignment export
`output_var_X.csv` (rows of selected `(obra, cod_dep)` pairs, each with
`obra_atendida = 1`) and the reconciled table behind
`output_agrupado.csv`. -/
structure Artifacts where
  var_x_rows : List (Nat × Nat)
  recon : List ReconRow
deriving DecidableEq, Repr

/-- `obras[['obra', 'cod_dep', 'prioridade']].drop_duplicates()` — the left
side of the reconciling merge. -/
def leftTable (inp : Input) : List (Nat × Nat × Rat) :=
  uniques (inp.obras.map (fun r => (r.obra, r.cod_dep, r.prioridade)))

/-- The merge keys `(obra, cod_dep)` of the left side, in row order. -/
def leftKeys (inp : Input) : List (Nat × Nat) :=
  (leftTable inp).map (fun r => (r.1, r.2.1))

/-- The body of `generate_results` given the already computed selection
`vars_x_on`: write `df_output_X`, then left-join the deduplicated
`(obra, cod_dep, prioridade)` rows against it with `validate='1:1'`
(raising `MergeError` when the merge keys are not unique on either side),
fill unmatched rows with `obra_atendida = 0`, and compute
`prioridade_atendida = obra_atendida * prioridade`. -/
def reconcile (inp : Input) (vars_x_on : List (Nat × Nat)) : Except String Artifacts :=
  if (leftKeys inp).Nodup ∧ vars_x_on.Nodup then
    .ok
      { var_x_rows := vars_x_on
        recon :=
          (leftTable inp).map (fun r =>
            { obra := r.1
              cod_dep := r.2.1
              prioridade := r.2.2
              obra_atendida := if (r.1, r.2.1) ∈ vars_x_on then 1 else 0
              prioridade_atendida :=
                (if (r.1, r.2.1) ∈ vars_x_on then (1 : Rat) else 0) * r.2.2 }) }
  else .error "MergeError: merge keys are not unique"

/-- `generate_results`: `vars_x_on = [key for key, elem in vars['x'].items()
if np.isclose(elem.X, 1)]`, then `reconcile`.  When the solver status is
infeasible or unbounded, the first read of `elem.X` raises a
`GurobiError`; with an empty `x` dictionary no element is read and the
comprehension yields the empty selection. -/
def resultsOnNoSolution (inp : Input) : Except String Artifacts :=
  match xKeys inp with
  | [] => reconcile inp []
  | _ :: _ => .error "GurobiError: unable to retrieve attribute X"

def generate_results (inp : Input) (st : SolverStatus) : Except String Artifacts :=
  match st with
  | .optimal xv => reconcile inp ((xKeys inp).filter (fun p => isCloseOne (xv p)))
  | .infeasible => resultsOnNoSolution inp
  | .unbounded => resultsOnNoSolution inp

/-! ## Definitions taken from the specification text

These re-state, in the specification's own words, the objects the claims
compare the implementation against; each is deliberately written from the
spec sentence, not from the source. -/

/-- Spec, section 4.3: the mass-balance constraint for material `m` at site
`j` — consumption `sum over tasks i in I_j with m in M_i of x[i,j]*q[i,m]`
plus outflow `sum over other sites k of t[j,k,m]` is at most the initial
stock `Q[j,m]` (defaulting to 0 for a pair absent from the Stock relation)
plus inflow `sum over other sites k of t[k,j,m]`.  Here `I_j` is the set
of tasks listing site `j` as a candidate, which is empty for a site with
no task rows, so the constraint exists for every `(m, j)` pair. -/
def specMassBalance (inp : Input) (m j : Nat) : Constr :=
  { tag := .stockBalance m j
    lhs :=
      (((I_j inp j).filter (fun i => decide (m ∈ M_i inp i))).map
        (fun i => (VarKey.x i j, q inp i m))) ++
      (((J inp).filter (fun k => decide (k ≠ j))).map
        (fun k => (VarKey.t j k m, (1 : Rat))))
    rhsConst := Q_get inp j m
    rhs :=
      ((J inp).filter (fun k => decide (k ≠ j))).map
        (fun k => (VarKey.t k j m, (1 : Rat))) }

/-- Spec, section 4.3: the assignment constraint for task `i` —
`sum over j in J_i of x[i,j] <= 1`. -/
def specAssignConstr (inp : Input) (i : Nat) : Constr :=
  { tag := .oneExecution i
    lhs := (J_i inp i).map (fun j => (VarKey.x i j, (1 : Rat)))
    rhsConst := 1
    rhs := [] }

/-- Spec, section 4.3: the objective — maximize the sum over all valid
`(task, site)` pairs (the sparse domain of `x`) of `x[i,j] * w[i]`. -/
def specObjective (inp : Input) : Objective :=
  { terms := (xKeys inp).map (fun p => (VarKey.x p.1 p.2, (w inp p.1).getD 0))
    maximize := true }

/-- Spec, section 4.4 and section 3: the sparse domain of `x` — the set of
`(task, site)` pairs derived from the deduplicated Task relation. -/
def specXDomain (inp : Input) : List (Nat × Nat) :=
  uniques (inp.obras.map (fun r => (r.obra, r.cod_dep)))

/-! ## Basic membership lemmas -/

theorem mem_I (inp : Input) (i : Nat) :
    i ∈ I inp ↔ ∃ r ∈ inp.obras, r.obra = i := by
  simp [I, mem_uniques, List.mem_map]

theorem mem_J_i (inp : Input) (i j : Nat) :
    j ∈ J_i inp i ↔ ∃ r ∈ inp.obras, r.obra = i ∧ r.cod_dep = j := by
  simp [J_i, mem_uniques, List.mem_map, List.mem_filter, decide_eq_true_iff, and_assoc]

theorem mem_I_j (inp : Input) (j i : Nat) :
    i ∈ I_j inp j ↔ ∃ r ∈ inp.obras, r.cod_dep = j ∧ r.obra = i := by
  simp [I_j, mem_uniques, List.mem_map, List.mem_filter, decide_eq_true_iff, and_assoc]

theorem mem_M_i (inp : Input) (i m : Nat) :
    m ∈ M_i inp i ↔ ∃ r ∈ inp.obras, r.obra = i ∧ r.cod_mat = m := by
  simp [M_i, mem_uniques, List.mem_map, List.mem_filter, decide_eq_true_iff, and_assoc]

theorem J_i_find_eq_some_of_mem_I (inp : Input) (i : Nat) (h : i ∈ I inp) :
    J_i_find inp i = some (J_i inp i) := by
  rcases (mem_I inp i).mp h with ⟨r, hr, hri⟩
  rw [J_i_find, if_pos]
  exact List.any_eq_true.mpr ⟨r, hr, by simp [hri]⟩

theorem J_i_find_isSome_iff (inp : Input) (i : Nat) :
    (J_i_find inp i).isSome = true ↔ i ∈ I inp := by
  rw [J_i_find, mem_I]
  by_cases h : inp.obras.any (fun r => decide (r.obra = i)) = true
  · rw [if_pos h]
    simp only [Option.isSome_some, true_iff]
    rcases List.any_eq_true.mp h with ⟨r, hr, hri⟩
    exact ⟨r, hr, of_decide_eq_true hri⟩
  · rw [if_neg h]
    simp only [Option.isSome_none, Bool.false_eq_true, false_iff]
    rintro ⟨r, hr, hri⟩
    exact h (List.any_eq_true.mpr ⟨r, hr, by simp [hri]⟩)

theorem I_j_find_eq (inp : Input) (j : Nat) (tasks : List Nat)
    (h : I_j_find inp j = some tasks) : tasks = I_j inp j := by
  rw [I_j_find] at h
  by_cases hc : inp.obras.any (fun r => decide (r.cod_dep = j)) = true
  · rw [if_pos hc] at h
    exact (Option.some.injEq _ _ ▸ h).symm
  · rw [if_neg hc] at h
    cases h

theorem q_find_guarded (inp : Input) (i m : Nat) (h : m ∈ M_i inp i) :
    q_find inp i m = some (q inp i m) := by
  rcases (mem_M_i inp i m).mp h with ⟨r, hr, h1, h2⟩
  rw [q_find, if_pos]
  exact List.any_eq_true.mpr ⟨r, hr, by simp [h1, h2]⟩

theorem w_eq_some_of_mem_I (inp : Input) (i : Nat) (h : i ∈ I inp) :
    ∃ r ∈ inp.obras, r.obra = i ∧ w inp i = some r.prioridade := by
  rcases (mem_I inp i).mp h with ⟨r0, hr0, hr0i⟩
  have hmem : (i, r0.prioridade) ∈ wPairs inp :=
    (mem_uniques _ _).mpr (List.mem_map.mpr ⟨r0, hr0, by rw [hr0i]⟩)
  have hf : (i, r0.prioridade) ∈ (wPairs inp).filter (fun p => decide (p.1 = i)) :=
    List.mem_filter.mpr ⟨hmem, by simp⟩
  have hne : (wPairs inp).filter (fun p => decide (p.1 = i)) ≠ [] :=
    List.ne_nil_of_mem hf
  set fl := (wPairs inp).filter (fun p => decide (p.1 = i)) with hfl
  have hlast : fl.getLast? = some (fl.getLast hne) := List.getLast?_eq_getLast fl hne
  have hlmem : fl.getLast hne ∈ fl := List.getLast_mem hne
  rcases List.mem_filter.mp hlmem with ⟨hlw, hlfst⟩
  rcases List.mem_map.mp ((mem_uniques _ _).mp hlw) with ⟨r, hrmem, hrpair⟩
  refine ⟨r, hrmem, ?_, ?_⟩
  · have : r.obra = (fl.getLast hne).1 := by rw [← hrpair]
    rw [this]
    exact of_decide_eq_true hlfst
  · rw [w, ← hfl, hlast]
    simp only [Option.map_some']
    congr 1
    rw [← hrpair]

/-! ## `optMap` lemmas -/

theorem optMap_eq_some_of (f : α → Option β) (g : α → β) :
    ∀ l : List α, (∀ a ∈ l, f a = some (g a)) → optMap f l = some (l.map g) := by
  intro l
  induction l with
  | nil => intro _; rfl
  | cons a as ih =>
    intro h
    have ha := h a (List.mem_cons_self a as)
    have hrest := ih (fun b hb => h b (List.mem_cons_of_mem _ hb))
    simp [optMap, ha, hrest]

theorem optMap_mem (f : α → Option β) :
    ∀ (l : List α) (ys : List β), optMap f l = some ys → ∀ y ∈ ys, ∃ x ∈ l, f x = some y := by
  intro l
  induction l with
  | nil =>
    intro ys h y hy
    simp only [optMap, Option.some.injEq] at h
    subst h
    simp at hy
  | cons a as ih =>
    intro ys h y hy
    rw [optMap] at h
    cases hfa : f a with
    | none => rw [hfa] at h; cases h
    | some b =>
      rw [hfa] at h
      cases hrest : optMap f as with
      | none => rw [hrest] at h; cases h
      | some bs =>
        rw [hrest] at h
        injection h with h
        subst h
        rcases List.mem_cons.mp hy with h1 | h1
        · exact ⟨a, List.mem_cons_self a as, by rw [hfa, h1]⟩
        · rcases ih bs hrest y h1 with ⟨x, hx, hfx⟩
          exact ⟨x, List.mem_cons_of_mem _ hx, hfx⟩

/-! ## Variable-domain lemmas -/

theorem mem_xKeys_pair (inp : Input) (i j : Nat) :
    (i, j) ∈ xKeys inp ↔ i ∈ I inp ∧ j ∈ J_i inp i := by
  simp only [xKeys, List.mem_flatMap, List.mem_map]
  constructor
  · rintro ⟨i2, hi2, j2, hj2, heq⟩
    injection heq with e1 e2
    subst e1; subst e2
    exact ⟨hi2, hj2⟩
  · rintro ⟨hi, hj⟩
    exact ⟨i, hi, j, hj, rfl⟩

theorem mem_xKeys (inp : Input) (i j : Nat) :
    (i, j) ∈ xKeys inp ↔ ∃ r ∈ inp.obras, r.obra = i ∧ r.cod_dep = j := by
  rw [mem_xKeys_pair, mem_J_i]
  constructor
  · rintro ⟨_, h⟩; exact h
  · rintro ⟨r, hr, h1, h2⟩
    exact ⟨(mem_I inp i).mpr ⟨r, hr, h1⟩, ⟨r, hr, h1, h2⟩⟩

theorem xKeys_nodup (inp : Input) : (xKeys inp).Nodup := by
  rw [xKeys, List.nodup_flatMap]
  constructor
  · intro i _
    exact List.Nodup.map (fun a b h => by injection h) (nodup_uniques _)
  · refine List.Pairwise.imp ?_ (nodup_uniques _)
    intro a b hab
    intro p hpa hpb
    rcases List.mem_map.mp hpa with ⟨j1, _, hj1⟩
    rcases List.mem_map.mp hpb with ⟨j2, _, hj2⟩
    rw [← hj1] at hj2
    injection hj2 with e1 _
    exact hab e1.symm

/-! ## Filter helper -/

theorem filter_singleton_of_nodup [DecidableEq α] :
    ∀ l : List α, l.Nodup → ∀ a ∈ l, l.filter (fun x => decide (x = a)) = [a] := by
  intro l
  induction l with
  | nil => intro _ a ha; simp at ha
  | cons b bs ih =>
    intro hn a ha
    rcases List.nodup_cons.mp hn with ⟨hnb, hnbs⟩
    rcases List.mem_cons.mp ha with h | h
    · rw [← h] at hnb ⊢
      rw [List.filter_cons, if_pos (by simp)]
      have hnil : bs.filter (fun x => decide (x = a)) = [] := by
        apply List.filter_eq_nil_iff.mpr
        intro x hx hdec
        exact hnb ((of_decide_eq_true hdec) ▸ hx)
      rw [hnil]
    · have hba : ¬(decide (b = a) = true) := by
        simp only [decide_eq_true_iff]
        intro hh
        subst hh
        exact hnb h
      rw [List.filter_cons, if_neg hba]
      exact ih hnbs a h

/-! ## Model-construction lemmas -/

theorem massConstr_eq_spec (inp : Input) (m j : Nat) (c : Constr)
    (h : massConstr inp m j = some c) : c = specMassBalance inp m j := by
  rw [massConstr] at h
  cases hfind : I_j_find inp j with
  | none => rw [hfind] at h; cases h
  | some tasks =>
    rw [hfind] at h
    have ht : tasks = I_j inp j := I_j_find_eq inp j tasks hfind
    subst ht
    simp only [Option.some.injEq] at h
    rw [← h]
    rfl

theorem mem_massConstrs (inp : Input) (cs : List Constr)
    (h : massConstrs inp = some cs) (c : Constr) (hc : c ∈ cs) :
    ∃ m ∈ M inp, ∃ j ∈ J inp, massConstr inp m j = some c := by
  rw [massConstrs] at h
  cases hrows : optMap (fun m => optMap (fun j => massConstr inp m j) (J inp)) (M inp) with
  | none => rw [hrows] at h; cases h
  | some rows =>
    rw [hrows] at h
    simp only [Option.map_some', Option.some.injEq] at h
    subst h
    rcases List.mem_flatten.mp hc with ⟨row, hrow, hcrow⟩
    rcases optMap_mem _ _ _ hrows row hrow with ⟨m, hm, hfm⟩
    rcases optMap_mem _ _ _ hfm c hcrow with ⟨j, hj, hfj⟩
    exact ⟨m, hm, j, hj, hfj⟩

theorem buildModel_ok (inp : Input) (Mo : GModel) (h : buildModel inp = .ok Mo) :
    ∃ mcs, massConstrs inp = some mcs ∧ Mo.constrs = assignConstrs inp ++ mcs ∧
      Mo.obj = set_obj_priority inp ∧ xKeysOpt inp = some Mo.xK := by
  rw [buildModel] at h
  cases hx : xKeysOpt inp with
  | none => rw [hx] at h; cases h
  | some xk =>
    rw [hx] at h
    cases hm : massConstrs inp with
    | none => rw [hm] at h; cases h
    | some mcs =>
      rw [hm] at h
      cases h
      exact ⟨mcs, rfl, rfl, rfl, rfl⟩

/-! ## Concrete inputs used by witnesses and counterexamples -/

/-- A minimal well-formed input: one task (id 1, priority 5) at site 1
demanding 4 units of material 1, with 10 units in stock there. -/
def demoIn : Input :=
  { estoque := [⟨1, 1, 10⟩]
    obras := [⟨1, 1, 5, 1, 4⟩] }

/-- The model built from `demoIn` (defined by running the builder, so that
`buildModel demoIn = .ok demoModel` holds by computation). -/
def demoModel : GModel :=
  match buildModel demoIn with
  | .ok Mo => Mo
  | .error _ => default

/-- The mass-balance constraints emitted for `demoIn`. -/
def demoMass : List Constr :=
  (massConstrs demoIn).getD []

/-- An input whose Stock relation mentions site 2 while no Task row does:
site 2 is in the Sites set but has no `I_j` dictionary entry. -/
def stockOnlySiteIn : Input :=
  { estoque := [⟨1, 1, 10⟩, ⟨2, 1, 5⟩]
    obras := [⟨1, 1, 5, 1, 4⟩] }

/-- An input in which task 1 at site 1 carries two conflicting priorities
(5 in the first row, 7 in the second). -/
def conflictIn : Input :=
  { estoque := [⟨1, 1, 10⟩]
    obras := [⟨1, 1, 5, 1, 4⟩, ⟨1, 1, 7, 1, 4⟩] }

/-- A solved-variable assignment placing task 1 at site 1 and nothing
else. -/
def xvDemo : Nat × Nat → Rat := fun p => if p = (1, 1) then 1 else 0

/-- The all-zero solved-variable assignment. -/
def xvZero : Nat × Nat → Rat := fun _ => 0

/-- The site-selection function matching `xvDemo`. -/
def selDemo : Nat → Nat := fun _ => 1

theorem isCloseOne_one : isCloseOne 1 = true := by
  norm_num [isCloseOne]

theorem isCloseOne_zero : isCloseOne 0 = false := by
  norm_num [isCloseOne]

/-! ## Claim theorems -/

/-- Claim C1: every mass-balance constraint emitted by the model builder
has, for some material `m` in Materials and site `j` in Sites, exactly the
spec form: sum over tasks `i` in `I_j` with `m` in `M_i` of
`x[i,j] * q[i,m]`, plus sum over sites `k ≠ j` of `t[j,k,m]`, is at most
`Q[j,m]` — defaulting to 0 at constraint-construction time when `(j, m)`
is absent from the Stock relation — plus sum over sites `k ≠ j` of
`t[k,j,m]`. -/
theorem mass_balance_emitted_form (inp : Input) (cs : List Constr)
    (h : massConstrs inp = some cs) :
    ∀ c ∈ cs, ∃ m ∈ M inp, ∃ j ∈ J inp, c = specMassBalance inp m j := by
  intro c hc
  rcases mem_massConstrs inp cs h c hc with ⟨m, hm, j, hj, hcm⟩
  exact ⟨m, hm, j, hj, massConstr_eq_spec inp m j c hcm⟩

theorem mass_balance_emitted_form_witness :
    massConstrs demoIn = some demoMass ∧
      ∀ c ∈ demoMass, ∃ m ∈ M demoIn, ∃ j ∈ J demoIn, c = specMassBalance demoIn m j :=
  ⟨rfl, mass_balance_emitted_form demoIn demoMass rfl⟩

/-- Claim C2 (the code contradicts it): on `stockOnlySiteIn`, site 2 is in
the Sites set derived from Stock but appears in no Task row, and
constraint generation aborts with a `KeyError` on `model_sets['I_j'][2]`
instead of emitting the degenerate constraint the spec requires for the
`(material 1, site 2)` pair. -/
theorem mass_balance_keyerror_on_stock_only_site :
    2 ∈ J stockOnlySiteIn ∧ massConstrs stockOnlySiteIn = none ∧
      buildModel stockOnlySiteIn = .error "KeyError in create_constraints" :=
  ⟨by decide, rfl, rfl⟩

/-- Claim C4: the key set of the binary variable `x` is exactly the set of
`(task, candidate site)` pairs of the deduplicated Task relation — the
sparse domain — not the full task-by-site cross product. -/
theorem x_domain_eq_task_site_pairs (inp : Input) (p : Nat × Nat) :
    p ∈ xKeys inp ↔ p ∈ specXDomain inp := by
  obtain ⟨i, j⟩ := p
  rw [mem_xKeys, specXDomain, mem_uniques]
  constructor
  · rintro ⟨r, hr, hi, hj⟩
    exact List.mem_map.mpr ⟨r, hr, by rw [hi, hj]⟩
  · intro h
    rcases List.mem_map.mp h with ⟨r, hr, heq⟩
    injection heq with e1 e2
    exact ⟨r, hr, e1, e2⟩

theorem x_domain_eq_task_site_pairs_witness :
    (1, 1) ∈ xKeys demoIn ↔ (1, 1) ∈ specXDomain demoIn :=
  x_domain_eq_task_site_pairs demoIn (1, 1)

/-- Claim C6 (the code contradicts it): on `conflictIn`, whose Task
relation carries conflicting priorities 5 and 7 for task 1, no
data-integrity error is surfaced at the parameter-building stage: `w`
silently resolves to 7 by dictionary last-write-wins, and model
construction completes instead of the run aborting. -/
theorem priority_conflict_not_surfaced_cex :
    (∃ r1 ∈ conflictIn.obras, ∃ r2 ∈ conflictIn.obras,
        r1.obra = r2.obra ∧ r1.prioridade ≠ r2.prioridade) ∧
      w conflictIn 1 = some 7 ∧ (buildModel conflictIn).toOption.isSome = true := by
  refine ⟨by decide, by decide, ?_⟩
  rfl

/-- Claim C6, amended: conflicting priority values for one task id are not
surfaced as an error; parameter building always succeeds, silently
resolving `w[i]` to the priority carried by one of that task's own rows
(dictionary last-write-wins over the deduplicated (task, priority)
pairs), and the run proceeds to model construction. -/
theorem priority_conflict_silent_resolution (inp : Input) (i : Nat) (hi : i ∈ I inp) :
    ∃ r ∈ inp.obras, r.obra = i ∧ w inp i = some r.prioridade :=
  w_eq_some_of_mem_I inp i hi

theorem priority_conflict_silent_resolution_witness :
    1 ∈ I conflictIn ∧
      ∃ r ∈ conflictIn.obras, r.obra = 1 ∧ w conflictIn 1 = some r.prioridade :=
  ⟨by decide, priority_conflict_silent_resolution conflictIn 1 (by decide)⟩

/-- Claim C3: for every task `i` in the derived task set, the built model
contains exactly one assignment constraint — the filter of its constraint
list on the name `C1_OneExecution_i` is the singleton
`sum over j in J_i of x[i,j] ≤ 1` — and any assignment of values
satisfying that constraint executes task `i` at most once:
`sum over j in J_i of x[i,j] ≤ 1`. -/
theorem assignment_constraint_unique_per_task (inp : Input) (Mo : GModel)
    (h : buildModel inp = .ok Mo) (i : Nat) (hi : i ∈ I inp) :
    Mo.constrs.filter (fun c => decide (c.tag = CTag.oneExecution i)) =
        [specAssignConstr inp i] ∧
      ∀ σ : VarKey → Rat, satisfies σ (specAssignConstr inp i) →
        ((J_i inp i).map (fun j => σ (VarKey.x i j))).sum ≤ 1 := by
  rcases buildModel_ok inp Mo h with ⟨mcs, hmcs, hconstrs, _, _⟩
  constructor
  · rw [hconstrs, List.filter_append]
    have h1 : (assignConstrs inp).filter (fun c => decide (c.tag = CTag.oneExecution i)) =
        [assignConstr inp i] := by
      rw [assignConstrs, List.filter_map]
      have hcong :
          (I inp).filter ((fun c => decide (c.tag = CTag.oneExecution i)) ∘ assignConstr inp) =
            (I inp).filter (fun i2 => decide (i2 = i)) := by
        apply List.filter_congr
        intro x _
        simp [assignConstr, Function.comp]
      rw [hcong, filter_singleton_of_nodup (I inp) (nodup_uniques _) i hi]
      rfl
    have h2 : mcs.filter (fun c => decide (c.tag = CTag.oneExecution i)) = [] := by
      apply List.filter_eq_nil_iff.mpr
      intro c hc hdec
      rcases mem_massConstrs inp mcs hmcs c hc with ⟨m, _, j, _, hcm⟩
      rw [massConstr_eq_spec inp m j c hcm, specMassBalance] at hdec
      exact absurd (of_decide_eq_true hdec) (by simp)
    rw [h1, h2]
    rfl
  · intro σ hσ
    rw [satisfies, specAssignConstr] at hσ
    simp only [evalTerms, List.map_map, Function.comp_def, one_mul, List.map_nil,
      List.sum_nil, add_zero] at hσ
    exact hσ

theorem assignment_constraint_unique_per_task_witness :
    buildModel demoIn = .ok demoModel ∧ 1 ∈ I demoIn ∧
      (demoModel.constrs.filter (fun c => decide (c.tag = CTag.oneExecution 1)) =
          [specAssignConstr demoIn 1] ∧
        ∀ σ : VarKey → Rat, satisfies σ (specAssignConstr demoIn 1) →
          ((J_i demoIn 1).map (fun j => σ (VarKey.x 1 j))).sum ≤ 1) :=
  ⟨rfl, by decide, assignment_constraint_unique_per_task demoIn demoModel rfl 1 (by decide)⟩

/-- Claim C5: the objective the builder sets on the model is maximization
of the sum over all valid `(task, site)` pairs (site in `J_i`) of
`x[i,j] * w[i]`; it is the model's sole objective — the only
`setObjective` call of the working implementation, with no transport-cost
objective replacing it. -/
theorem objective_is_priority_maximization (inp : Input) (Mo : GModel)
    (h : buildModel inp = .ok Mo) : Mo.obj = specObjective inp := by
  rcases buildModel_ok inp Mo h with ⟨_, _, _, hobj, _⟩
  rw [hobj, set_obj_priority, specObjective]
  congr 1
  rw [xKeys, List.map_flatMap]
  simp only [List.map_map]
  rfl

theorem objective_is_priority_maximization_witness :
    buildModel demoIn = .ok demoModel ∧ demoModel.obj = specObjective demoIn :=
  ⟨rfl, objective_is_priority_maximization demoIn demoModel rfl⟩

/-- When the Task relation has at least one row, the `x` dictionary is
nonempty. -/
theorem xKeys_ne_nil (inp : Input) (h : inp.obras ≠ []) : xKeys inp ≠ [] := by
  cases hobr : inp.obras with
  | nil => exact absurd hobr h
  | cons r rest =>
    refine List.ne_nil_of_mem ((mem_xKeys inp r.obra r.cod_dep).mpr ⟨r, ?_, rfl, rfl⟩)
    rw [hobr]
    exact List.mem_cons_self r rest

/-- Claim C7: when the solver terminates with infeasible or unbounded
status, result extraction raises on the first read of a variable value —
before any artifact is written — so the run reports the terminal failure
with no partial solution and produces no assignment export.  (Stated for
inputs with at least one Task row; a task-free input either aborts during
constraint generation or yields a constraint-free model that the solver
cannot report infeasible or unbounded.) -/
theorem no_export_on_infeasible_or_unbounded (inp : Input) (st : SolverStatus)
    (hst : st = SolverStatus.infeasible ∨ st = SolverStatus.unbounded)
    (hx : inp.obras ≠ []) :
    generate_results inp st = .error "GurobiError: unable to retrieve attribute X" := by
  have hkeys := xKeys_ne_nil inp hx
  rcases hst with h | h <;> subst h <;>
    · show resultsOnNoSolution inp = _
      rw [resultsOnNoSolution]
      cases hk : xKeys inp with
      | nil => exact absurd hk hkeys
      | cons a l => rfl

theorem no_export_on_infeasible_or_unbounded_witness :
    (SolverStatus.infeasible = SolverStatus.infeasible ∨
        SolverStatus.infeasible = SolverStatus.unbounded) ∧
      demoIn.obras ≠ [] ∧
      generate_results demoIn SolverStatus.infeasible =
        .error "GurobiError: unable to retrieve attribute X" :=
  ⟨Or.inl rfl, by decide,
    no_export_on_infeasible_or_unbounded demoIn SolverStatus.infeasible (Or.inl rfl)
      (by decide)⟩

/-- Claim C9: for every Task relation in the row-per-(task, site,
material) input format, the key set of the `J_i` dictionary is exactly
the derived task set `I`, every `J_i[i]` is non-empty, and therefore the
`x`-variable creation comprehension never hits a missing key — the
spec's empty-`J_i` edge case is unrepresentable in this input format. -/
theorem J_i_keys_cover_tasks (inp : Input) :
    (∀ i, (J_i_find inp i).isSome = true ↔ i ∈ I inp) ∧
      (∀ i ∈ I inp, J_i inp i ≠ []) ∧
      xKeysOpt inp = some (xKeys inp) := by
  refine ⟨J_i_find_isSome_iff inp, ?_, ?_⟩
  · intro i hi
    rcases (mem_I inp i).mp hi with ⟨r, hr, hri⟩
    exact List.ne_nil_of_mem ((mem_J_i inp i r.cod_dep).mpr ⟨r, hr, hri, rfl⟩)
  · rw [xKeysOpt,
      optMap_eq_some_of _ (fun i => (J_i inp i).map (fun j => (i, j))) (I inp)
        (fun i hi => by rw [J_i_find_eq_some_of_mem_I inp i hi, Option.map_some'])]
    rfl

theorem J_i_keys_cover_tasks_witness :
    (∀ i, (J_i_find demoIn i).isSome = true ↔ i ∈ I demoIn) ∧
      (∀ i ∈ I demoIn, J_i demoIn i ≠ []) ∧
      xKeysOpt demoIn = some (xKeys demoIn) :=
  J_i_keys_cover_tasks demoIn

/-- Claim C8: for every solution in which, per task, exactly the variable
of one selected site is within the numerical tolerance of 1, the result
extractor succeeds and its reconciled table marks `obra_atendida = 1` on
exactly the selected `(task, site)` rows, `obra_atendida = 0` on every
other row of those tasks, and `prioridade_atendida = obra_atendida *
prioridade` throughout.  (The deduplicated `(task, site, priority)` rows
must have unique merge keys, as the validated merge requires.) -/
theorem result_roundtrip_served_flags (inp : Input) (xv : Nat × Nat → Rat)
    (sel : Nat → Nat) (hkeys : (leftKeys inp).Nodup)
    (hsel : ∀ i ∈ I inp, isCloseOne (xv (i, sel i)) = true)
    (hother : ∀ p ∈ xKeys inp, p.2 ≠ sel p.1 → isCloseOne (xv p) = false) :
    ∃ arts, generate_results inp (SolverStatus.optimal xv) = .ok arts ∧
      ∀ row ∈ arts.recon,
        (row.cod_dep = sel row.obra → row.obra_atendida = 1) ∧
        (row.cod_dep ≠ sel row.obra → row.obra_atendida = 0) ∧
        row.prioridade_atendida = row.obra_atendida * row.prioridade := by
  have hvars : ((xKeys inp).filter (fun p => isCloseOne (xv p))).Nodup :=
    (xKeys_nodup inp).filter _
  rw [generate_results, reconcile, if_pos ⟨hkeys, hvars⟩]
  refine ⟨_, rfl, ?_⟩
  intro row hrow
  rcases List.mem_map.mp hrow with ⟨r, hr, hrr⟩
  rcases List.mem_map.mp ((mem_uniques _ _).mp hr) with ⟨ro, hro, hreq⟩
  subst hreq
  subst hrr
  have hrx : (ro.obra, ro.cod_dep) ∈ xKeys inp :=
    (mem_xKeys inp ro.obra ro.cod_dep).mpr ⟨ro, hro, rfl, rfl⟩
  have hoI : ro.obra ∈ I inp := (mem_I inp ro.obra).mpr ⟨ro, hro, rfl⟩
  refine ⟨?_, ?_, rfl⟩
  · intro hd
    dsimp only at hd ⊢
    have hclose : isCloseOne (xv (ro.obra, ro.cod_dep)) = true := by
      rw [hd]
      exact hsel ro.obra hoI
    rw [if_pos (List.mem_filter.mpr ⟨hrx, hclose⟩)]
  · intro hd
    dsimp only at hd ⊢
    have hnot : (ro.obra, ro.cod_dep) ∉
        (xKeys inp).filter (fun p => isCloseOne (xv p)) := by
      intro hmem
      rcases List.mem_filter.mp hmem with ⟨-, hclose⟩
      rw [hother (ro.obra, ro.cod_dep) hrx hd] at hclose
      cases hclose
    rw [if_neg hnot]

theorem result_roundtrip_served_flags_witness :
    (leftKeys demoIn).Nodup ∧
      (∃ arts, generate_results demoIn (SolverStatus.optimal xvDemo) = .ok arts ∧
        ∀ row ∈ arts.recon,
          (row.cod_dep = selDemo row.obra → row.obra_atendida = 1) ∧
          (row.cod_dep ≠ selDemo row.obra → row.obra_atendida = 0) ∧
          row.prioridade_atendida = row.obra_atendida * row.prioridade) :=
  ⟨by decide,
    result_roundtrip_served_flags demoIn xvDemo selDemo (by decide)
      (by
        intro i hi
        rw [show I demoIn = [1] from by decide] at hi
        rw [List.mem_singleton.mp hi]
        exact isCloseOne_one)
      (by
        intro p hp hne
        rw [show xKeys demoIn = [(1, 1)] from by decide] at hp
        rw [List.mem_singleton.mp hp] at hne
        exact absurd rfl hne)⟩

/-- Claim C10: if the same `(task, site)` pair occurs in the Task relation
with two distinct priority values, the one-to-one-validated merge in
`generate_results` raises a `MergeError` after solving (for any solved
variable values), even though parameter building earlier resolved the
conflicting priorities silently (`w` holds a value for that task). -/
theorem conflicting_priorities_fail_at_result_extraction (inp : Input)
    (xv : Nat × Nat → Rat) (r1 r2 : ObraRow) (h1 : r1 ∈ inp.obras) (h2 : r2 ∈ inp.obras)
    (hob : r1.obra = r2.obra) (hdep : r1.cod_dep = r2.cod_dep)
    (hpr : r1.prioridade ≠ r2.prioridade) :
    generate_results inp (SolverStatus.optimal xv) =
        .error "MergeError: merge keys are not unique" ∧
      (w inp r1.obra).isSome = true := by
  constructor
  · rw [generate_results, reconcile, if_neg]
    rintro ⟨hkeys, -⟩
    have ht1 : (r1.obra, r1.cod_dep, r1.prioridade) ∈ leftTable inp :=
      (mem_uniques _ _).mpr (List.mem_map.mpr ⟨r1, h1, rfl⟩)
    have ht2 : (r2.obra, r2.cod_dep, r2.prioridade) ∈ leftTable inp :=
      (mem_uniques _ _).mpr (List.mem_map.mpr ⟨r2, h2, rfl⟩)
    have heq := List.inj_on_of_nodup_map hkeys ht1 ht2 (by rw [hob, hdep])
    injection heq with e1 erest
    injection erest with e2 e3
    exact hpr e3
  · rcases w_eq_some_of_mem_I inp r1.obra ((mem_I inp r1.obra).mpr ⟨r1, h1, rfl⟩) with
      ⟨r, -, -, hw⟩
    rw [hw]
    rfl

theorem conflicting_priorities_fail_at_result_extraction_witness :
    generate_results conflictIn (SolverStatus.optimal xvZero) =
        .error "MergeError: merge keys are not unique" ∧
      (w conflictIn (1 : Nat)).isSome = true :=
  conflicting_priorities_fail_at_result_extraction conflictIn xvZero
    ⟨1, 1, 5, 1, 4⟩ ⟨1, 1, 7, 1, 4⟩ (by decide) (by decide) rfl rfl (by decide)

end Portfolio
